import Mathlib

/-
  Verification of the Audiobook-Organizer core against its specification.

  Shallow embedding of Python modules of the repository:
  - src/backend/path_generator.py   (sanitize_filename, extract_year, generate_audiobook_paths)
  - src/backend/audible_service.py  (calculate_match_score)
  - src/backend/audiobook_tracker.py (find_orphaned_metadata, get_folders_to_scan)
  - src/backend/metadata_extractor.py (build_audiobook_metadata, enrichment handling)
  - src/backend/app.py              (organize_audiobooks: move, cleanup phases)

  Machine integers and floats of the source are modelled as Nat / Int / Rat.
  File-system paths are modelled as lists of segments (the code normalizes
  separators before every comparison, so segment lists capture the comparisons).
-/

/-! ## String helpers mirroring Python primitives -/

/-- Python `str.lower()` (ASCII case folding suffices for the data involved). -/
def lower (s : String) : String :=
  String.mk (s.toList.map Char.toLower)

/-- Characters matched by the Python whitespace regex class. -/
def pyIsSpace (c : Char) : Bool :=
  c = ' ' || c = '\t' || c = '\n' || c = '\r' || c = '\x0b' || c = '\x0c'

/-- Python regex substitution of whitespace runs by a single space.
Each maximal whitespace run becomes one space.
The flag records whether the previous character was whitespace. -/
def collapseWS : Bool → List Char → List Char
  | _, [] => []
  | prevWs, c :: rest =>
    if pyIsSpace c then
      if prevWs then collapseWS true rest
      else ' ' :: collapseWS true rest
    else c :: collapseWS false rest

/-- Python `str.strip()` restricted to the whitespace that can remain after
`collapseWS` (single spaces). -/
def stripSpaces (l : List Char) : List Char :=
  ((l.dropWhile pyIsSpace).reverse.dropWhile pyIsSpace).reverse

/-- Python rstrip over dots and spaces. -/
def rstripDotSpace (l : List Char) : List Char :=
  (l.reverse.dropWhile (fun c => c = '.' || c = ' ')).reverse

/-- Python `str.replace(old, new)` for a single-character `old`. -/
def replaceChar (l : List Char) (c : Char) (r : List Char) : List Char :=
  (l.map (fun ch => if ch = c then r else [ch])).flatten

/-- The replacement table of `sanitize_filename` (path_generator.py lines 20-33),
in source order. -/
def sanitizeRepls : List (Char × List Char) :=
  [(':', [' ', '-']), ('?', []), ('*', []), ('\x22', ['\x27']), ('<', ['(']),
   ('>', [')']), ('|', ['-']), ('/', ['-']), ('\\', ['-']), ('\n', [' ']),
   ('\r', [' ']), ('\t', [' '])]

/-- path_generator.sanitize_filename: apply the replacement table, collapse
whitespace runs, strip, then strip trailing dots and spaces. -/
def sanitize_filename (text : String) : String :=
  if text = "" then ""
  else
    let s := sanitizeRepls.foldl (fun acc pr => replaceChar acc pr.1 pr.2) text.toList
    let s := stripSpaces (collapseWS false s)
    String.mk (rstripDotSpace s)

/-- Regex search for the first run of four consecutive digits. -/
def findYear4 : List Char → Option String
  | a :: b :: c :: d :: rest =>
    if a.isDigit && b.isDigit && c.isDigit && d.isDigit then
      some (String.mk [a, b, c, d])
    else findYear4 (b :: c :: d :: rest)
  | _ => none

/-- path_generator.extract_year: first 4-digit run of the year field
(the field already rendered to a string; `""` models a falsy value). -/
def extract_year (year_value : String) : String :=
  if year_value = "" then "" else (findYear4 year_value.toList).getD ""

/-- The final component of a `/`-separated path string (`pathlib.Path(p).name`;
the repository stores all media paths with `/` separators). -/
def lastComponent (p : String) : String :=
  String.mk ((p.toList.reverse.takeWhile (fun c => c ≠ '/')).reverse)

/-- Model of `pathlib.Path(p).suffix`: the extension of the final component,
empty when the name has no interior dot. -/
def pySuffix (p : String) : String :=
  let cs := (lastComponent p).toList
  let afterDot := (cs.reverse.takeWhile (fun c => c ≠ '.')).reverse
  if afterDot.length = cs.length then ""
  else
    let i := cs.length - afterDot.length - 1
    if 0 < i ∧ 0 < afterDot.length then String.mk ('.' :: afterDot) else ""

/-- Model of `pathlib.Path(name).stem` for a bare file name. -/
def pyStem (name : String) : String :=
  let cs := name.toList
  let afterDot := (cs.reverse.takeWhile (fun c => c ≠ '.')).reverse
  if afterDot.length = cs.length then name
  else
    let i := cs.length - afterDot.length - 1
    if 0 < i ∧ 0 < afterDot.length then String.mk (cs.take i) else name

/-- Python `f"{i:02d}"` for nonnegative `i`. -/
def pad2 (i : Nat) : String :=
  if i < 10 then "0" ++ toString i else toString i

/-- Python `str.startswith(pre)`. -/
def pyStartsWith (s pre : String) : Bool :=
  pre.toList.isPrefixOf s.toList

/-- Left-to-right non-overlapping substring replacement on character lists;
the fuel argument (initially the list length) only serves structural
recursion and never runs out for a nonempty pattern. -/
def replaceSubAux (pat repl : List Char) : Nat → List Char → List Char
  | _, [] => []
  | 0, l => l
  | fuel + 1, c :: rest =>
    if pat.isPrefixOf (c :: rest) then
      repl ++ replaceSubAux pat repl fuel ((c :: rest).drop pat.length)
    else c :: replaceSubAux pat repl fuel rest

/-- Python `str.replace(pat, repl)` for a nonempty pattern. -/
def pyReplace (s pat repl : String) : String :=
  String.mk (replaceSubAux pat.toList repl.toList s.toList.length s.toList)

/-! ## Path generator (src/backend/path_generator.py, generate_audiobook_paths) -/

/-- The metadata fields read by `generate_audiobook_paths`.  `series`,
`book_number` and `year` model `dict.get` with falsy defaults (`""` stands for
an absent or falsy value, the numbers already rendered by the f-string);
`title` is `none` when the key is absent so that the two distinct defaults
`"Unknown Series"` / `"Unknown Title"` of the source apply. -/
structure PgMeta where
  series : String
  title : Option String
  book_number : String
  year : String
deriving DecidableEq, Repr

structure FolderStructure where
  series_folder : String
  book_folder : String
  full_folder_path : String
  is_multi_part : Bool
  part_count : Nat
deriving DecidableEq, Repr

structure PathGenResult where
  organized_paths : List String
  folder_structure : FolderStructure
deriving DecidableEq, Repr

/-- path_generator.generate_audiobook_paths (lines 60-133). -/
def generate_audiobook_paths (m : PgMeta) (original_paths : List String) : PathGenResult :=
  let series_title := if m.series ≠ "" then m.series else m.title.getD "Unknown Series"
  let book_title := m.title.getD "Unknown Title"
  let release_year := extract_year m.year
  let series_clean := sanitize_filename series_title
  let title_clean := sanitize_filename book_title
  let bnPre := if m.book_number ≠ "" then m.book_number ++ "-" else ""
  let yearSuf := if release_year ≠ "" then " (" ++ release_year ++ ")" else ""
  let folder_name := bnPre ++ title_clean ++ yearSuf
  let series_folder := series_clean
  let num_files := original_paths.length
  let organized_paths :=
    if num_files = 1 then
      [series_folder ++ "/" ++ folder_name ++ "/" ++ title_clean ++
        pySuffix (original_paths.headD "")]
    else
      original_paths.enum.map (fun ip =>
        series_folder ++ "/" ++ folder_name ++ "/" ++ title_clean ++
          " [Part " ++ pad2 (ip.1 + 1) ++ "]" ++ pySuffix ip.2)
  { organized_paths := organized_paths
    folder_structure :=
      { series_folder := series_folder
        book_folder := folder_name
        full_folder_path := series_folder ++ "/" ++ folder_name
        is_multi_part := decide (1 < num_files)
        part_count := num_files } }

/-! ## Candidate scoring (src/backend/audible_service.py, calculate_match_score)

The string similarity is `difflib.SequenceMatcher(...).ratio()`, a Python
standard-library collaborator; it is passed in as the parameter `sim`
(the spec describes it only as "a normalized edit/ratio similarity in [0,1]").
Floats of the source are modelled as rationals. -/

/-- The local-record fields read by `calculate_match_score`; `""` and `0`
model absent/falsy values exactly as Python truthiness tests do. -/
structure LocalMeta where
  asin : String
  title : String
  author : String
  runtime_length_min : Nat
deriving DecidableEq, Repr

/-- The candidate fields read by `calculate_match_score`.  `authorsHead`
models the name of the first entry of the audible authors list; the code
falls back to the flat `author` field when it is empty. -/
structure CandMeta where
  asin : String
  title : String
  authorsHead : String
  author : String
  runtime_length_min : Nat
deriving DecidableEq, Repr

/-- ASIN comparison (lines 142-146): weight 0.4 applies when both sides carry
an ASIN; the contribution is 0.4 on a case-insensitive match.  Returns
`(contribution, applied weight)`. -/
def asinScore (audible_meta : CandMeta) (local_meta : LocalMeta) : ℚ × ℚ :=
  if local_meta.asin ≠ "" ∧ audible_meta.asin ≠ "" then
    ((if lower local_meta.asin = lower audible_meta.asin then (2 / 5 : ℚ) else 0), 2 / 5)
  else (0, 0)

/-- Title similarity (lines 148-154): weight 0.3 applies when both lowercased
titles are nonempty; the contribution is 0.3 times the similarity ratio. -/
def titleScore (sim : String → String → ℚ) (audible_meta : CandMeta)
    (local_meta : LocalMeta) : ℚ × ℚ :=
  if lower local_meta.title ≠ "" ∧ lower audible_meta.title ≠ "" then
    ((3 / 10 : ℚ) * sim (lower local_meta.title) (lower audible_meta.title), 3 / 10)
  else (0, 0)

/-- The candidate author string `authors[0].name or author` of lines 158-159. -/
def audibleAuthor (audible_meta : CandMeta) : String :=
  if audible_meta.authorsHead ≠ "" then audible_meta.authorsHead else audible_meta.author

/-- Author similarity (lines 156-163), weight 0.2. -/
def authorScore (sim : String → String → ℚ) (audible_meta : CandMeta)
    (local_meta : LocalMeta) : ℚ × ℚ :=
  if lower local_meta.author ≠ "" ∧ lower (audibleAuthor audible_meta) ≠ "" then
    ((1 / 5 : ℚ) * sim (lower local_meta.author) (lower (audibleAuthor audible_meta)), 1 / 5)
  else (0, 0)

/-- Runtime closeness (lines 165-173), weight 0.25:
`max(0, 1 - |local - audible| / max(local, audible))`. -/
def runtimeScore (audible_meta : CandMeta) (local_meta : LocalMeta) : ℚ × ℚ :=
  if local_meta.runtime_length_min ≠ 0 ∧ audible_meta.runtime_length_min ≠ 0 then
    ((1 / 4 : ℚ) * max 0 (1 -
      |(local_meta.runtime_length_min : ℚ) - (audible_meta.runtime_length_min : ℚ)| /
        max (local_meta.runtime_length_min : ℚ) (audible_meta.runtime_length_min : ℚ)), 1 / 4)
  else (0, 0)

/-- The accumulated applied weight (the variable `total_weight` of the source). -/
def match_total_weight (sim : String → String → ℚ) (audible_meta : CandMeta)
    (local_meta : LocalMeta) : ℚ :=
  (asinScore audible_meta local_meta).2 + (titleScore sim audible_meta local_meta).2 +
    (authorScore sim audible_meta local_meta).2 + (runtimeScore audible_meta local_meta).2

/-- audible_service.calculate_match_score (lines 134-176): the accumulated
score normalized by the accumulated weight, `0.0` when no weight applied. -/
def calculate_match_score (sim : String → String → ℚ) (audible_meta : CandMeta)
    (local_meta : LocalMeta) : ℚ :=
  if match_total_weight sim audible_meta local_meta > 0 then
    ((asinScore audible_meta local_meta).1 + (titleScore sim audible_meta local_meta).1 +
        (authorScore sim audible_meta local_meta).1 + (runtimeScore audible_meta local_meta).1) /
      match_total_weight sim audible_meta local_meta
  else 0

/-! ## Change tracker (src/backend/audiobook_tracker.py) -/

/-- A media path relative to the media root, as a list of segments (the code
normalizes `/` versus `\` separators before every comparison it makes). -/
abbrev FPath := List String

/-- Model of `str(pathlib.Path(p).parent)` on a segment list. -/
def folderOf (p : FPath) : FPath := p.dropLast

/-- One persisted Work Record as read by `find_orphaned_metadata`:
the uuid, title, path list and coverImage of its JSON body plus the
name and on-disk modification time of the record file. -/
structure MetaRecord where
  fileName : String
  uuid : String
  title : String
  paths : List FPath
  coverImage : String
  mtime : Int
deriving DecidableEq, Repr

/-- Stage one of find_orphaned_metadata (lines 81-112): a record is orphaned
when it lists no paths, none of its paths exists in the current file set, or
no folder of any of its paths is tracked. -/
def isOrphaned1 (current_files : List FPath) (tracked_folders : List FPath)
    (r : MetaRecord) : Bool :=
  if r.paths = [] then true
  else
    let paths_exist := r.paths.any (fun p => current_files.contains p)
    let folder_is_tracked := r.paths.any (fun p => tracked_folders.contains (folderOf p))
    !paths_exist || !folder_is_tracked

/-- The folder of the first path of a record (the `primary_folder` of the source). -/
def primaryFolder (r : MetaRecord) : FPath := folderOf (r.paths.headD [])

/-- Records orphaned by stage one, in file order. -/
def orphanRecords1 (records : List MetaRecord) (current_files tracked_folders : List FPath) :
    List MetaRecord :=
  records.filter (isOrphaned1 current_files tracked_folders)

/-- Records surviving stage one (the entries of `folder_metadata_map`). -/
def liveRecords (records : List MetaRecord) (current_files tracked_folders : List FPath) :
    List MetaRecord :=
  records.filter (fun r => !(isOrphaned1 current_files tracked_folders r))

/-- The `folder_metadata_map` grouping (lines 114-122): live records grouped by primary
folder; each group keeps record order. -/
def folderGroups (live : List MetaRecord) : List (FPath × List MetaRecord) :=
  ((live.map primaryFolder).dedup).map
    (fun f => (f, live.filter (fun r => primaryFolder r = f)))

/-- Descending order on record-file modification times (the
`sort(key=..., reverse=True)` of line 147). -/
def mtimeGe (a b : MetaRecord) : Prop := b.mtime ≤ a.mtime

instance : DecidableRel mtimeGe := fun a b => inferInstanceAs (Decidable (b.mtime ≤ a.mtime))

instance : IsTotal MetaRecord mtimeGe := ⟨fun a b => (le_total b.mtime a.mtime)⟩

instance : IsTrans MetaRecord mtimeGe := ⟨fun _ _ _ hab hbc => le_trans hbc hab⟩

/-- Stage two of find_orphaned_metadata (lines 143-161): in every folder
group with more than one live record, sort by modification time descending
(a stable sort, as in Python) and mark all but the newest as orphaned with
reason "duplicate". -/
def duplicateMarked (live : List MetaRecord) : List MetaRecord :=
  (folderGroups live).flatMap
    (fun fg => if 1 < fg.2.length then (List.insertionSort mtimeGe fg.2).tail else [])

/-- Duplicate-marked records of the full input. -/
def orphanedDuplicates (records : List MetaRecord) (current_files tracked_folders : List FPath) :
    List MetaRecord :=
  duplicateMarked (liveRecords records current_files tracked_folders)

/-- The non-orphaned records remaining after both stages. -/
def keptRecords (records : List MetaRecord) (current_files tracked_folders : List FPath) :
    List MetaRecord :=
  (liveRecords records current_files tracked_folders).filter
    (fun r => r ∉ orphanedDuplicates records current_files tracked_folders)

/-- Cover collection for one orphaned record (lines 132-138 and 163-169):
the coverImage of the record must be nonempty, start with `/covers/`, and the
referenced file must exist in the covers directory. -/
def coversOfRecord (covers : List String) (r : MetaRecord) : List String :=
  if r.coverImage ≠ "" ∧ pyStartsWith r.coverImage "/covers/" then
    let cover_filename := pyReplace r.coverImage "/covers/" ""
    if covers.contains cover_filename then [cover_filename] else []
  else []

/-- Covers collected from stage-one orphans followed by duplicate-marked
records, in source order. -/
def coversFromOrphans (records : List MetaRecord) (current_files tracked_folders : List FPath)
    (covers : List String) : List String :=
  (orphanRecords1 records current_files tracked_folders).flatMap (coversOfRecord covers) ++
    (orphanedDuplicates records current_files tracked_folders).flatMap (coversOfRecord covers)

/-- The `active_metadata_uuids` set (lines 172-183): the nonempty uuids of every
persisted record file, orphaned or not. -/
def activeUuids (records : List MetaRecord) : List String :=
  (records.filter (fun r => r.uuid ≠ "")).map (fun r => r.uuid)

/-- Stage three of find_orphaned_metadata (lines 185-191): every cover file
whose stem is not among `active_metadata_uuids` is appended, skipping covers
already collected. -/
def orphanedCovers (records : List MetaRecord) (current_files tracked_folders : List FPath)
    (covers : List String) : List String :=
  covers.foldl
    (fun acc c =>
      if pyStem c ∉ activeUuids records ∧ c ∉ acc then acc ++ [c] else acc)
    (coversFromOrphans records current_files tracked_folders covers)

/-- One folder entry of the current or tracked folder map
(`get_current_file_structure`): audio-file count and latest modification
time (the float mtime modelled as an integer). -/
structure FolderInfo where
  file_count : Nat
  last_modified : Int
deriving DecidableEq, Repr

/-- Ordered-dictionary lookup on an association list. -/
def lookupFolder (m : List (String × FolderInfo)) (k : String) : Option FolderInfo :=
  (m.find? (fun e => e.1 = k)).map (fun e => e.2)

/-- The per-folder test of get_folders_to_scan (lines 283-298): a tracked
folder is due when its modification time increased or its file count
changed; an untracked folder is always due. -/
def folderDue (tracked : List (String × FolderInfo)) (k : String) (fi : FolderInfo) : Bool :=
  match lookupFolder tracked k with
  | some t => decide (t.last_modified < fi.last_modified) || decide (fi.file_count ≠ t.file_count)
  | none => true

/-- audiobook_tracker.get_folders_to_scan (lines 275-300): the keys of the
current folder map that are due for scanning, in current-map order. -/
def get_folders_to_scan (tracked current : List (String × FolderInfo)) : List String :=
  (current.filter (fun e => folderDue tracked e.1 e.2)).map (fun e => e.1)

/-! ## Work grouper enrichment handling (src/backend/metadata_extractor.py,
build_audiobook_metadata lines 190-213, and src/backend/audible_service.py,
enhance_audiobook_metadata lines 390-468) -/

/-- The shape of the dictionary `enhance_audiobook_metadata` returns; the
suggestion payload type is abstract (its fields are irrelevant here). -/
structure EnhanceOutcome (α : Type) where
  audible_enhanced : Bool
  audible_suggestions : List α
  message : Option String
deriving DecidableEq, Repr

/-- audible_service.enhance_audiobook_metadata, abstracted over the catalog
search step: `results` is the raw candidate list (`none` models a `None`
return), `build_suggestions` stands for the ranking/extraction loop of lines
415-456.  `if not search_results` covers both `None` and the empty list. -/
def enhance_audiobook_metadata {α : Type} (results : Option (List α))
    (build_suggestions : List α → List α) : EnhanceOutcome α :=
  match results with
  | none => ⟨false, [], some "No Audible results found"⟩
  | some [] => ⟨false, [], some "No Audible results found"⟩
  | some rs =>
    let suggestions := build_suggestions rs
    ⟨true, suggestions,
      some ("Found " ++ toString suggestions.length ++ " ranked suggestions")⟩

/-- The dictionary persisted by build_audiobook_metadata (lines 202-211).
Its literal has exactly the keys `original`, `audible_suggestions`, `status`;
the field `message` records whether a `message` key is present in the
persisted record (the original block is abbreviated to its title). -/
structure AudiobookRecord (α : Type) where
  original_title : String
  audible_suggestions : List α
  status : String
  message : Option String
deriving DecidableEq, Repr

/-- metadata_extractor.build_audiobook_metadata, enrichment step (lines
190-213): `enrichment = none` models `enhance_audiobook_metadata` raising, in
which case the `except` branch substitutes an empty suggestion list; the
record is persisted unconditionally afterwards and this function returns the
persisted value. -/
def build_audiobook_metadata {α : Type} (original_title : String)
    (enrichment : Option (EnhanceOutcome α)) : AudiobookRecord α :=
  let audible_suggestions :=
    match enrichment with
    | some r => r.audible_suggestions
    | none => []
  { original_title := original_title
    audible_suggestions := audible_suggestions
    status := "pending"
    message := none }

/-! ## Organizer/Committer (src/backend/app.py, organize_audiobooks lines
790-1000).  The media filesystem is the list of existing source files
(paths relative to the media root); the metadata store is the list of
persisted record uuids, the cover store the list of cover file names.
Destination files live under a different root and are not part of this
state; the empty-folder cleanup between the move phase and the deletion
phase only removes empty directories and cannot change which files exist,
so it is modelled separately below. -/

/-- One accepted-candidate work as the organize loop sees it:
`organizedPaths` is the path-generator output (`none` when
`generate_paths_for_audiobook` returned `None`, line 844). -/
structure OrgWork where
  uuid : String
  status : String
  hasSuggestions : Bool
  origPaths : List FPath
  organizedPaths : Option (List FPath)
deriving DecidableEq, Repr

/-- The per-file copy/move loop (lines 861-887): a file is processed
successfully when its source exists; in move mode the source disappears.
Returns the updated filesystem and `files_moved_successfully`. -/
def moveFiles (copy_only : Bool) : List FPath → List (FPath × FPath) → List FPath × Nat
  | fs, [] => (fs, 0)
  | fs, (src, _dest) :: rest =>
    if fs.contains src then
      let fs1 := if copy_only then fs else fs.erase src
      let r := moveFiles copy_only fs1 rest
      (r.1, r.2 + 1)
    else
      moveFiles copy_only fs rest

/-- Processing of one audiobook (lines 836-893): generate paths, move the
zipped path pairs, and flag the work for cleanup iff move mode is on and
every file was moved (line 890). -/
def processWork (copy_only : Bool) (fs : List FPath) (w : OrgWork) : List FPath × Bool :=
  match w.organizedPaths with
  | none => (fs, false)
  | some org =>
    let r := moveFiles copy_only fs (w.origPaths.zip org)
    (r.1, !copy_only && decide (r.2 = w.origPaths.length))

/-- The records selected for organizing (line 815): status `accepted` with a
nonempty suggestions list. -/
def selectedWorks (works : List OrgWork) : List OrgWork :=
  works.filter (fun w => w.status = "accepted" && w.hasSuggestions)

/-- The main loop over accepted audiobooks: threads the filesystem and
collects `successfully_organized`. -/
def organizePhase1 (copy_only : Bool) : List FPath → List OrgWork → List FPath × List OrgWork
  | fs, [] => (fs, [])
  | fs, w :: rest =>
    let pr := processWork copy_only fs w
    let r := organizePhase1 copy_only pr.1 rest
    (r.1, (if pr.2 then [w] else []) ++ r.2)

/-- The defensive re-check of lines 943-952: none of the original
paths of the work may still exist on disk. -/
def recheckClear (fs : List FPath) (w : OrgWork) : Bool :=
  w.origPaths.all (fun p => !(fs.contains p))

/-- The cover extension probe order of line 965. -/
def cover_extensions : List String := [".jpg", ".jpeg", ".png", ".webp", ".gif"]

/-- Cover deletion for one uuid (lines 964-972): remove the first existing
`uuid + ext` cover, if any. -/
def deleteCover (covers : List String) (uuid : String) : List String :=
  match cover_extensions.find? (fun e => covers.contains (uuid ++ e)) with
  | some e => covers.erase (uuid ++ e)
  | none => covers

/-- Metadata/cover cleanup for one successfully organized work (lines
935-972): skipped when the uuid is missing or some original path still
exists; otherwise the record file and the first matching cover are deleted. -/
def cleanupWork (fs : List FPath) (st : List String × List String) (w : OrgWork) :
    List String × List String :=
  if w.uuid = "" then st
  else if recheckClear fs w then (st.1.erase w.uuid, deleteCover st.2 w.uuid)
  else st

/-- The cleanup loop over `successfully_organized` (lines 932-975), guarded
by `not copy_only`. -/
def organizePhase3 (fs : List FPath) (elig : List OrgWork)
    (meta covers : List String) : List String × List String :=
  elig.foldl (cleanupWork fs) (meta, covers)

structure OrganizeResult where
  fs : List FPath
  metaStore : List String
  coverStore : List String
  eligible : List OrgWork
deriving DecidableEq, Repr

/-- app.organize_audiobooks on the modelled state: select accepted works,
move their files, then (move mode only) delete records and covers of works
whose files are all gone.  The folder-cleanup step between the two phases is
modelled by `cleanupEmptyFolders` below and leaves file existence unchanged. -/
def organize_audiobooks (copy_only : Bool) (fs : List FPath)
    (meta covers : List String) (works : List OrgWork) : OrganizeResult :=
  let p1 := organizePhase1 copy_only fs (selectedWorks works)
  let p3 := if copy_only then (meta, covers) else organizePhase3 p1.1 p1.2 meta covers
  ⟨p1.1, p3.1, p3.2, p1.2⟩

/-! ## Empty-folder cleanup (src/backend/app.py lines 899-927).
Directories are segment lists; the directory tree is an association list
from each existing directory to the names of its entries (files and
subdirectories).  `os.rmdir` semantics: removal succeeds only on an existing
empty directory, otherwise OSError is raised (and caught by the source). -/

abbrev Folder := List String

abbrev DirState := List (Folder × List String)

def lookupDir (st : DirState) (f : Folder) : Option (List String) :=
  (st.find? (fun e => e.1 = f)).map (fun e => e.2)

/-- Remove one entry name from the listing of a parent directory. -/
def removeEntry (st : DirState) (parent : Folder) (name : String) : DirState :=
  st.map (fun e => if e.1 = parent then (e.1, e.2.erase name) else e)

/-- Model of `Path.rmdir()`: succeeds iff the directory exists and is empty; on
success the directory disappears and its name leaves the listing of its parent. -/
def rmdirModel (st : DirState) (f : Folder) : DirState × Bool :=
  match lookupDir st f with
  | some [] =>
    (removeEntry (st.filter (fun e => e.1 ≠ f)) (folderOf f) (f.getLastD ""), true)
  | _ => (st, false)

/-- Helper for `ancestorsBelow`, structurally recursive on the reversed
segment list (each loop iteration drops the last segment). -/
def ancestorsBelowAux (root : Folder) : List String → List Folder
  | [] => []
  | x :: rest =>
    let f := (x :: rest).reverse
    if f = root then [] else f :: ancestorsBelowAux root rest

/-- The `while current and current != MEDIA_ROOT and current != current.parent`
walk of lines 905-909: the folder and its ancestors strictly below the root. -/
def ancestorsBelow (root : Folder) (f : Folder) : List Folder :=
  ancestorsBelowAux root f.reverse

/-- The `all_folders_to_check` collection (set semantics, lines 903-909). -/
def collectFolders (root : Folder) (touched : List Folder) : List Folder :=
  (touched.flatMap (ancestorsBelow root)).dedup

/-- Deepest-first order, `sorted(key=lambda x: len(x.parts), reverse=True)`
(line 912); ties are unordered in the source (a hash-ordered set) and
removal outcomes at equal depth are independent, so a stable sort models it. -/
def deeperFirst (a b : Folder) : Prop := b.length ≤ a.length

instance : DecidableRel deeperFirst := fun a b => inferInstanceAs (Decidable (b.length ≤ a.length))

/-- The cleanup loop of lines 914-927: for each collected folder, deepest
first, when it exists and is empty or holds only hidden entries, attempt
`rmdir`; an OSError (directory in fact not empty) is silently swallowed, and
only a successful removal is counted. -/
def cleanupEmptyFolders (root : Folder) (touched : List Folder) (st : DirState) :
    DirState × Nat :=
  let sorted_folders := List.insertionSort deeperFirst (collectFolders root touched)
  sorted_folders.foldl
    (fun acc f =>
      match lookupDir acc.1 f with
      | none => acc
      | some contents =>
        if contents = [] ∨ contents.all (fun n => pyStartsWith n ".") then
          let r := rmdirModel acc.1 f
          if r.2 then (r.1, acc.2 + 1) else (r.1, acc.2)
        else acc)
    (st, 0)

/-! ## Theorems -/

/-- Helper: lowering the empty string yields the empty string. -/
theorem lower_empty : lower "" = "" := rfl

/-- C4 counterexample: for the single-file work titled "Path: Of Daggers?"
with no series, the generated path is NOT
`Path Of Daggers/Path Of Daggers/Path Of Daggers.mp3` — `sanitize_filename`
maps `:` to `" -"`, so a dash remains. -/
theorem c4_counterexample :
    (generate_audiobook_paths ⟨"", some "Path: Of Daggers?", "", ""⟩
        ["Some Folder/book.mp3"]).organized_paths ≠
      ["Path Of Daggers/Path Of Daggers/Path Of Daggers.mp3"] := by decide

/-- C4 (amended): the generated path for that work is
`Path - Of Daggers/Path - Of Daggers/Path - Of Daggers.mp3` (the colon
becomes `" -"` and the question mark is stripped), and no character of the
generated path is `:` or `?`. -/
theorem c4_amended :
    (generate_audiobook_paths ⟨"", some "Path: Of Daggers?", "", ""⟩
        ["Some Folder/book.mp3"]).organized_paths =
      ["Path - Of Daggers/Path - Of Daggers/Path - Of Daggers.mp3"] ∧
    (("Path - Of Daggers/Path - Of Daggers/Path - Of Daggers.mp3").toList.all
      (fun c => c ≠ ':' ∧ c ≠ '?')) = true := by decide

/-- C10: when the total applied weight is zero (no scorable field pair
present on both sides), `calculate_match_score` returns exactly 0 and the
normalizing division is not performed. -/
theorem c10_zero_weight (sim : String → String → ℚ) (a : CandMeta) (l : LocalMeta)
    (h : match_total_weight sim a l = 0) :
    calculate_match_score sim a l = 0 := by
  unfold calculate_match_score
  rw [h]
  norm_num

/-- Witness for C10: metadata with every field absent scores 0. -/
theorem c10_witness :
    calculate_match_score (fun _ _ => 0) ⟨"", "", "", "", 0⟩ ⟨"", "", "", 0⟩ = 0 :=
  c10_zero_weight (fun _ _ => 0) ⟨"", "", "", "", 0⟩ ⟨"", "", "", 0⟩
    (by norm_num [match_total_weight, asinScore, titleScore, authorScore,
      runtimeScore, lower_empty])

/-- C8 counterexample: when the catalog search yields nothing, the
enrichment result carries the message "No Audible results found", but the
record persisted by `build_audiobook_metadata` carries no message key at
all — the claim that the persisted record includes an explanatory message is
false. -/
theorem c8_counterexample :
    (build_audiobook_metadata "The Wind"
        (some (enhance_audiobook_metadata (none : Option (List Nat)) id))).message = none ∧
    (enhance_audiobook_metadata (none : Option (List Nat)) id).message =
      some "No Audible results found" := ⟨rfl, rfl⟩

/-- C8 (amended): when enrichment fails — it raises (`none`) or returns an
empty suggestion list — the work record is still persisted (status
"pending", original block intact) with an empty suggestion list, but without
any message field. -/
theorem c8_amended {α : Type} (title : String) (e : Option (EnhanceOutcome α))
    (hfail : e = none ∨ ∃ r, e = some r ∧ r.audible_suggestions = []) :
    (build_audiobook_metadata title e).status = "pending" ∧
    (build_audiobook_metadata title e).original_title = title ∧
    (build_audiobook_metadata title e).audible_suggestions = [] ∧
    (build_audiobook_metadata title e).message = none := by
  rcases hfail with h | ⟨r, he, hs⟩
  · subst h
    simp [build_audiobook_metadata]
  · subst he
    simp [build_audiobook_metadata, hs]

/-- Witness for C8: a raising enrichment still yields a persisted pending
record with no suggestions. -/
theorem c8_witness :
    (build_audiobook_metadata "t" (none : Option (EnhanceOutcome Nat))).status = "pending" ∧
    (build_audiobook_metadata "t" (none : Option (EnhanceOutcome Nat))).original_title = "t" ∧
    (build_audiobook_metadata "t" (none : Option (EnhanceOutcome Nat))).audible_suggestions = [] ∧
    (build_audiobook_metadata "t" (none : Option (EnhanceOutcome Nat))).message = none :=
  c8_amended "t" none (Or.inl rfl)

/-- C9: the folder-cleanup loop intends to remove folders that are empty or
hold only hidden entries, but `rmdir` fails (OSError, silently swallowed) on
any non-empty directory.  At a touched source folder containing only the
hidden file ".keep", nothing is removed and nothing is counted, while the
same folder when actually empty is removed — contradicting the documented
"a folder retaining only a hidden file is still removed". -/
theorem c9_hidden_only_folder_not_removed :
    cleanupEmptyFolders ["r"] [["r", "a"]] [(["r"], ["a"]), (["r", "a"], [".keep"])] =
      ([(["r"], ["a"]), (["r", "a"], [".keep"])], 0) ∧
    cleanupEmptyFolders ["r"] [["r", "a"]] [(["r"], ["a"]), (["r", "a"], [])] =
      ([(["r"], [])], 1) := by decide

/-- C3: for a nonempty path list the generator returns exactly one path per
input path in input order: a single source file maps to
`series/book/{sanitized title}{original extension}`; with more than one
file, the i-th output (0-based i) is
`series/book/{sanitized title} [Part NN]{ext}` with NN the 1-based position
zero-padded to two digits; the multi-part flag is set iff more than one
file. -/
theorem c3_generate_paths (m : PgMeta) (ps : List String) (hne : ps ≠ []) :
    (generate_audiobook_paths m ps).organized_paths.length = ps.length ∧
    ((generate_audiobook_paths m ps).folder_structure.is_multi_part = true ↔ 1 < ps.length) ∧
    (∀ p, ps = [p] →
      (generate_audiobook_paths m ps).organized_paths =
        [(generate_audiobook_paths m ps).folder_structure.series_folder ++ "/" ++
          (generate_audiobook_paths m ps).folder_structure.book_folder ++ "/" ++
          sanitize_filename (m.title.getD "Unknown Title") ++ pySuffix p]) ∧
    (1 < ps.length → ∀ i, i < ps.length →
      (generate_audiobook_paths m ps).organized_paths[i]? =
        some ((generate_audiobook_paths m ps).folder_structure.series_folder ++ "/" ++
          (generate_audiobook_paths m ps).folder_structure.book_folder ++ "/" ++
          sanitize_filename (m.title.getD "Unknown Title") ++
          " [Part " ++ pad2 (i + 1) ++ "]" ++ pySuffix (ps[i]?.getD ""))) := by
  by_cases h1 : ps.length = 1
  · obtain ⟨p, hp⟩ := List.length_eq_one.mp h1
    subst hp
    refine ⟨by simp [generate_audiobook_paths], by simp [generate_audiobook_paths], ?_, ?_⟩
    · intro q hq
      obtain rfl : p = q := by simpa using hq
      simp [generate_audiobook_paths]
    · intro h
      simp at h
  · refine ⟨?_, ?_, ?_, ?_⟩
    · simp [generate_audiobook_paths, h1]
    · simp [generate_audiobook_paths, h1]
    · intro q hq
      subst hq
      simp at h1
    · intro hgt i hi
      simp [generate_audiobook_paths, h1, List.getElem?_map, List.getElem?_enum,
        List.getElem?_eq_getElem hi]

/-- Witness for C3: a two-file work gets two paths and the multi-part flag. -/
theorem c3_witness :
    (generate_audiobook_paths ⟨"S", some "T", "", ""⟩
        ["a/b.mp3", "c.mp3"]).organized_paths.length =
      (["a/b.mp3", "c.mp3"] : List String).length ∧
    ((generate_audiobook_paths ⟨"S", some "T", "", ""⟩
        ["a/b.mp3", "c.mp3"]).folder_structure.is_multi_part = true ↔
      1 < (["a/b.mp3", "c.mp3"] : List String).length) :=
  ⟨(c3_generate_paths ⟨"S", some "T", "", ""⟩ ["a/b.mp3", "c.mp3"] (by decide)).1,
   (c3_generate_paths ⟨"S", some "T", "", ""⟩ ["a/b.mp3", "c.mp3"] (by decide)).2.1⟩

/-- Helper: association-list lookup with nodup keys finds the stored pair. -/
theorem lookupFolder_of_mem {l : List (String × FolderInfo)} {k : String} {fi : FolderInfo}
    (hnd : (l.map Prod.fst).Nodup) (hm : (k, fi) ∈ l) :
    lookupFolder l k = some fi := by
  induction l with
  | nil => simp at hm
  | cons e rest ih =>
    rcases List.mem_cons.mp hm with h | h
    · subst h
      simp [lookupFolder]
    · have hk : k ∈ rest.map Prod.fst := List.mem_map.mpr ⟨(k, fi), h, rfl⟩
      have hne : e.1 ≠ k := by
        intro hek
        have := (List.nodup_cons.mp hnd).1
        rw [hek] at this
        exact this hk
      have := ih (List.nodup_cons.mp hnd).2 h
      simpa [lookupFolder, List.find?, hne] using this

/-- C7 counterexample: a tracked folder whose current `last_modified` (5)
differs from the tracked value (10) by moving backwards, with an unchanged
file count, is NOT reported as due — the code tests `current > tracked`,
not inequality. -/
theorem c7_counterexample :
    get_folders_to_scan [("f", ⟨1, 10⟩)] [("f", ⟨1, 5⟩)] = [] ∧
    lookupFolder [("f", ⟨1, 10⟩)] "f" = some ⟨1, 10⟩ ∧
    (⟨1, 5⟩ : FolderInfo).last_modified ≠ (⟨1, 10⟩ : FolderInfo).last_modified := by
  decide

/-- C7 (amended): a current folder is due iff it is absent from the tracked
map, or its `last_modified` is strictly newer than the tracked value, or its
`file_count` differs; immediately after a scan records the current state, a
second pass reports no folders due. -/
theorem c7_amended (tracked current : List (String × FolderInfo))
    (hnd : (current.map Prod.fst).Nodup) :
    (∀ k fi, (k, fi) ∈ current →
      (k ∈ get_folders_to_scan tracked current ↔
        lookupFolder tracked k = none ∨
        ∃ t, lookupFolder tracked k = some t ∧
          (t.last_modified < fi.last_modified ∨ fi.file_count ≠ t.file_count))) ∧
    get_folders_to_scan current current = [] := by
  constructor
  · intro k fi hm
    have hmem : k ∈ get_folders_to_scan tracked current ↔ folderDue tracked k fi = true := by
      constructor
      · intro h
        obtain ⟨e, he, hek⟩ := List.mem_map.mp h
        obtain ⟨hec, hedue⟩ := List.mem_filter.mp he
        have : e = (k, fi) := by
          obtain ⟨k', fi'⟩ := e
          obtain rfl : k' = k := hek
          have ha := lookupFolder_of_mem hnd hec
          have hb := lookupFolder_of_mem hnd hm
          rw [ha] at hb
          obtain rfl : fi' = fi := by injection hb
          rfl
        rw [this] at hedue
        exact hedue
      · intro h
        exact List.mem_map.mpr ⟨(k, fi), List.mem_filter.mpr ⟨hm, h⟩, rfl⟩
    rw [hmem]
    unfold folderDue
    cases hl : lookupFolder tracked k with
    | none => simp [hl]
    | some t =>
      simp only [hl]
      constructor
      · intro h
        rcases Bool.or_eq_true .. ▸ h with h' | h'
        · exact Or.inr ⟨t, rfl, Or.inl (by simpa using h')⟩
        · exact Or.inr ⟨t, rfl, Or.inr (by simpa using h')⟩
      · rintro (h | ⟨t', ht', h⟩)
        · simp at h
        · obtain rfl : t' = t := by simpa using ht'.symm
          rcases h with h | h <;> simp [h]
  · rw [List.eq_nil_iff_forall_not_mem]
    intro k hk
    obtain ⟨e, he, hek⟩ := List.mem_map.mp hk
    obtain ⟨hec, hedue⟩ := List.mem_filter.mp he
    obtain ⟨k', fi'⟩ := e
    subst hek
    have := lookupFolder_of_mem hnd hec
    simp [folderDue, this] at hedue

/-- Witness for C7: a rescan of the just-recorded state is empty, and a new
folder is due. -/
theorem c7_witness :
    get_folders_to_scan [("g", ⟨2, 7⟩)] [("g", ⟨2, 7⟩)] = [] ∧
    ("g" ∈ get_folders_to_scan [] [("g", ⟨2, 7⟩)] ↔
      lookupFolder [] "g" = none ∨
      ∃ t, lookupFolder [] "g" = some t ∧
        (t.last_modified < (⟨2, 7⟩ : FolderInfo).last_modified ∨
          (⟨2, 7⟩ : FolderInfo).file_count ≠ t.file_count)) :=
  ⟨(c7_amended [("g", ⟨2, 7⟩)] [("g", ⟨2, 7⟩)] (by decide)).2,
   (c7_amended [] [("g", ⟨2, 7⟩)] (by decide)).1 "g" ⟨2, 7⟩ (by decide)⟩

/-- Helper: membership in the stage-three cover fold. -/
theorem mem_coverFold (uuids : List String) (l : List String) (acc : List String)
    (c : String) :
    c ∈ l.foldl (fun a c' => if pyStem c' ∉ uuids ∧ c' ∉ a then a ++ [c'] else a) acc ↔
      c ∈ acc ∨ (c ∈ l ∧ pyStem c ∉ uuids) := by
  induction l generalizing acc with
  | nil => simp
  | cons d rest ih =>
    rw [List.foldl_cons, ih]
    by_cases hd : pyStem d ∉ uuids ∧ d ∉ acc
    · rw [if_pos hd]
      simp only [List.mem_append, List.mem_cons, List.not_mem_nil, or_false]
      constructor
      · rintro ((h | rfl) | ⟨h1, h2⟩)
        · exact Or.inl h
        · exact Or.inr ⟨Or.inl rfl, hd.1⟩
        · exact Or.inr ⟨Or.inr h1, h2⟩
      · rintro (h | ⟨rfl | h1, h2⟩)
        · exact Or.inl (Or.inl h)
        · exact Or.inl (Or.inr rfl)
        · exact Or.inr ⟨h1, h2⟩
    · rw [if_neg hd]
      push_neg at hd
      simp only [List.mem_cons]
      constructor
      · rintro (h | ⟨h1, h2⟩)
        · exact Or.inl h
        · exact Or.inr ⟨Or.inr h1, h2⟩
      · rintro (h | ⟨rfl | h1, h2⟩)
        · exact Or.inl h
        · exact Or.inl (hd h2)
        · exact Or.inr ⟨h1, h2⟩

/-- C6 counterexample: a cover `u1.jpg` referenced only by an orphaned
record (uuid `u1`, its file gone, coverImage field empty) is NOT reported in
the orphaned-covers result, even though the identifier of no live record matches
its stem — `active_metadata_uuids` is built from all persisted records,
orphaned ones included. -/
theorem c6_counterexample :
    orphanedCovers [⟨"u1.json", "u1", "t", [["gone", "f.mp3"]], "", 0⟩] [] [] ["u1.jpg"] = [] ∧
    liveRecords [⟨"u1.json", "u1", "t", [["gone", "f.mp3"]], "", 0⟩] [] [] = [] ∧
    pyStem "u1.jpg" = "u1" := by decide

/-- C6 (amended): a cover file is reported as orphaned iff its filename stem
matches the uuid of no persisted record (live or orphaned), or it is referenced
via the coverImage field of a stage-one-orphaned or duplicate-marked
record. -/
theorem c6_amended (records : List MetaRecord) (cf tf : List FPath)
    (covers : List String) (c : String) (hc : c ∈ covers) :
    c ∈ orphanedCovers records cf tf covers ↔
      c ∈ coversFromOrphans records cf tf covers ∨ pyStem c ∉ activeUuids records := by
  unfold orphanedCovers
  rw [mem_coverFold]
  constructor
  · rintro (h | ⟨_, h2⟩)
    · exact Or.inl h
    · exact Or.inr h2
  · rintro (h | h)
    · exact Or.inl h
    · exact Or.inr ⟨hc, h⟩

/-- Witness for C6: with no records at all, a cover is orphaned by stem. -/
theorem c6_witness :
    ("x.jpg" ∈ orphanedCovers [] [] [] ["x.jpg"] ↔
      "x.jpg" ∈ coversFromOrphans [] [] [] ["x.jpg"] ∨
        pyStem "x.jpg" ∉ activeUuids []) :=
  c6_amended [] [] [] ["x.jpg"] "x.jpg" (by decide)

/-- Helper: lowering preserves emptiness. -/
theorem lower_eq_empty_iff (s : String) : lower s = "" ↔ s = "" := by
  cases s with
  | mk l => simp [lower, String.ext_iff, List.map_eq_nil_iff]

theorem asinScore_bounds (a : CandMeta) (l : LocalMeta) :
    0 ≤ (asinScore a l).1 ∧ (asinScore a l).1 ≤ (asinScore a l).2 ∧
      0 ≤ (asinScore a l).2 := by
  unfold asinScore
  split_ifs <;> norm_num

theorem titleScore_bounds (sim : String → String → ℚ)
    (hb : ∀ x y, 0 ≤ sim x y ∧ sim x y ≤ 1) (a : CandMeta) (l : LocalMeta) :
    0 ≤ (titleScore sim a l).1 ∧ (titleScore sim a l).1 ≤ (titleScore sim a l).2 ∧
      0 ≤ (titleScore sim a l).2 := by
  unfold titleScore
  split_ifs with h
  · have := hb (lower l.title) (lower a.title)
    refine ⟨by nlinarith [this.1], ?_, by norm_num⟩
    nlinarith [this.1, this.2]
  · norm_num

theorem authorScore_bounds (sim : String → String → ℚ)
    (hb : ∀ x y, 0 ≤ sim x y ∧ sim x y ≤ 1) (a : CandMeta) (l : LocalMeta) :
    0 ≤ (authorScore sim a l).1 ∧ (authorScore sim a l).1 ≤ (authorScore sim a l).2 ∧
      0 ≤ (authorScore sim a l).2 := by
  unfold authorScore
  split_ifs with h
  · have := hb (lower l.author) (lower (audibleAuthor a))
    refine ⟨by nlinarith [this.1], ?_, by norm_num⟩
    nlinarith [this.1, this.2]
  · norm_num

theorem runtimeScore_bounds (a : CandMeta) (l : LocalMeta) :
    0 ≤ (runtimeScore a l).1 ∧ (runtimeScore a l).1 ≤ (runtimeScore a l).2 ∧
      0 ≤ (runtimeScore a l).2 := by
  unfold runtimeScore
  split_ifs with h
  · refine ⟨?_, ?_, by norm_num⟩
    · have : (0 : ℚ) ≤ max 0 (1 -
          |(l.runtime_length_min : ℚ) - (a.runtime_length_min : ℚ)| /
            max (l.runtime_length_min : ℚ) (a.runtime_length_min : ℚ)) := le_max_left 0 _
      nlinarith
    · have hmax : (0 : ℚ) < max (l.runtime_length_min : ℚ) (a.runtime_length_min : ℚ) := by
        have : (0 : ℚ) < (l.runtime_length_min : ℚ) := by
          exact_mod_cast Nat.pos_of_ne_zero h.1
        exact lt_max_of_lt_left this
      have hdiff : 0 ≤ |(l.runtime_length_min : ℚ) - (a.runtime_length_min : ℚ)| /
          max (l.runtime_length_min : ℚ) (a.runtime_length_min : ℚ) :=
        div_nonneg (abs_nonneg _) (le_of_lt hmax)
      have hle : max 0 (1 - |(l.runtime_length_min : ℚ) - (a.runtime_length_min : ℚ)| /
          max (l.runtime_length_min : ℚ) (a.runtime_length_min : ℚ)) ≤ 1 := by
        rw [max_le_iff]
        constructor <;> nlinarith
      nlinarith [hle]
  · norm_num

theorem score_in_unit_interval (sim : String → String → ℚ)
    (hb : ∀ x y, 0 ≤ sim x y ∧ sim x y ≤ 1) (a : CandMeta) (l : LocalMeta) :
    0 ≤ calculate_match_score sim a l ∧ calculate_match_score sim a l ≤ 1 := by
  have h1 := asinScore_bounds a l
  have h2 := titleScore_bounds sim hb a l
  have h3 := authorScore_bounds sim hb a l
  have h4 := runtimeScore_bounds a l
  unfold calculate_match_score
  split_ifs with hpos
  · constructor
    · apply div_nonneg _ (le_of_lt hpos)
      nlinarith [h1.1, h2.1, h3.1, h4.1]
    · rw [div_le_one hpos]
      unfold match_total_weight at hpos ⊢
      nlinarith [h1.2.1, h2.2.1, h3.2.1, h4.2.1]
  · norm_num

theorem lower_ne_empty {s : String} (h : s ≠ "") : lower s ≠ "" :=
  fun hh => h ((lower_eq_empty_iff s).mp hh)

/-- C2 (amended): every match score lies in [0, 1]; a candidate whose
identifier, title, author and runtime all exactly match the local record
scores strictly higher than a candidate matching only on title similarity,
provided that title similarity is below 1 (for an identical title both
score exactly 1).  `sim` is the difflib ratio collaborator, assumed to take
values in [0, 1] and to be 1 on identical strings. -/
theorem c2_score_bounds_and_ranking (sim : String → String → ℚ)
    (hb : ∀ x y, 0 ≤ sim x y ∧ sim x y ≤ 1)
    (l : LocalMeta) (c1 c2 : CandMeta)
    (h1asin : c1.asin = l.asin) (hlasin : l.asin ≠ "")
    (h1t : c1.title = l.title) (hlt : l.title ≠ "")
    (hts : sim (lower l.title) (lower l.title) = 1)
    (h1auth : c1.authorsHead = l.author) (hla : l.author ≠ "")
    (has : sim (lower l.author) (lower l.author) = 1)
    (h1r : c1.runtime_length_min = l.runtime_length_min) (hlr : l.runtime_length_min ≠ 0)
    (h2asin : c2.asin = "") (h2head : c2.authorsHead = "") (h2auth : c2.author = "")
    (h2r : c2.runtime_length_min = 0) (h2t : c2.title ≠ "")
    (h2sim : sim (lower l.title) (lower c2.title) < 1) :
    (∀ a l', 0 ≤ calculate_match_score sim a l' ∧ calculate_match_score sim a l' ≤ 1) ∧
    calculate_match_score sim c2 l < calculate_match_score sim c1 l := by
  refine ⟨fun a l' => score_in_unit_interval sim hb a l', ?_⟩
  have e11 : asinScore c1 l = (2 / 5, 2 / 5) := by
    unfold asinScore
    rw [if_pos ⟨hlasin, h1asin ▸ hlasin⟩, if_pos (by rw [h1asin])]
  have e12 : titleScore sim c1 l = (3 / 10, 3 / 10) := by
    unfold titleScore
    rw [h1t, if_pos ⟨lower_ne_empty hlt, lower_ne_empty hlt⟩, hts]
    norm_num
  have hav1 : audibleAuthor c1 = l.author := by
    unfold audibleAuthor
    rw [h1auth]
    exact if_pos hla
  have e13 : authorScore sim c1 l = (1 / 5, 1 / 5) := by
    unfold authorScore
    rw [hav1, if_pos ⟨lower_ne_empty hla, lower_ne_empty hla⟩, has]
    norm_num
  have e14 : runtimeScore c1 l = (1 / 4, 1 / 4) := by
    unfold runtimeScore
    rw [h1r, if_pos ⟨hlr, hlr⟩]
    norm_num
  have hc1 : calculate_match_score sim c1 l = 1 := by
    unfold calculate_match_score match_total_weight
    rw [e11, e12, e13, e14]
    norm_num
  have e21 : asinScore c2 l = (0, 0) := by
    unfold asinScore
    rw [if_neg (by simp [h2asin])]
  have e22 : titleScore sim c2 l =
      (3 / 10 * sim (lower l.title) (lower c2.title), 3 / 10) := by
    unfold titleScore
    rw [if_pos ⟨lower_ne_empty hlt, lower_ne_empty h2t⟩]
  have hav2 : audibleAuthor c2 = "" := by
    unfold audibleAuthor
    rw [h2head, h2auth]
    simp
  have e23 : authorScore sim c2 l = (0, 0) := by
    unfold authorScore
    rw [hav2, if_neg (by simp [lower_empty])]
  have e24 : runtimeScore c2 l = (0, 0) := by
    unfold runtimeScore
    rw [if_neg (by simp [h2r])]
  have hc2 : calculate_match_score sim c2 l = sim (lower l.title) (lower c2.title) := by
    unfold calculate_match_score match_total_weight
    rw [e21, e22, e23, e24]
    norm_num
  rw [hc1, hc2]
  exact h2sim

/-- model similarity used in concrete instances: 1 on equal strings, 0 else
(difflib ratio is 1 exactly on equal strings) -/
def simEq (x y : String) : ℚ := if x = y then 1 else 0

theorem simEq_bounds : ∀ x y, 0 ≤ simEq x y ∧ simEq x y ≤ 1 := by
  intro x y
  unfold simEq
  split_ifs <;> norm_num

/-- C2 counterexample: with a title-only candidate whose title is identical
to the local title (similarity ratio exactly 1, as difflib yields on equal
strings), the normalization by applied weights makes its score 1, equal to
the score of the all-fields-exact candidate — so the claimed strict
inequality fails. -/
theorem c2_counterexample :
    calculate_match_score simEq ⟨"", "tt", "", "", 0⟩ ⟨"b0", "tt", "au", 5⟩ = 1 ∧
    calculate_match_score simEq ⟨"b0", "tt", "au", "", 5⟩ ⟨"b0", "tt", "au", 5⟩ = 1 ∧
    ¬(calculate_match_score simEq ⟨"", "tt", "", "", 0⟩ ⟨"b0", "tt", "au", 5⟩ <
      calculate_match_score simEq ⟨"b0", "tt", "au", "", 5⟩ ⟨"b0", "tt", "au", 5⟩) := by
  have h1 : lower "b0" = "b0" := rfl
  have h2 : lower "tt" = "tt" := rfl
  have h3 : lower "au" = "au" := rfl
  have h4 : lower "" = "" := rfl
  have n1 : (("b0" : String) = "") = False := eq_false (by decide)
  have n2 : (("tt" : String) = "") = False := eq_false (by decide)
  have n3 : (("au" : String) = "") = False := eq_false (by decide)
  refine ⟨?_, ?_, ?_⟩ <;>
    norm_num [calculate_match_score, match_total_weight, asinScore, titleScore,
      authorScore, audibleAuthor, runtimeScore, simEq, h1, h2, h3, h4, n1, n2, n3]

/-- Witness for C2: a genuinely similar-but-different title scores below
the all-exact candidate. -/
theorem c2_witness :
    calculate_match_score simEq ⟨"", "tx", "", "", 0⟩ ⟨"b0", "tt", "au", 5⟩ <
      calculate_match_score simEq ⟨"b0", "tt", "au", "", 5⟩ ⟨"b0", "tt", "au", 5⟩ :=
  (c2_score_bounds_and_ranking simEq simEq_bounds ⟨"b0", "tt", "au", 5⟩
      ⟨"b0", "tt", "au", "", 5⟩ ⟨"", "tx", "", "", 0⟩
      rfl (by decide) rfl (by decide) (by simp [simEq])
      rfl (by decide) (by simp [simEq])
      rfl (by decide) rfl rfl rfl rfl (by decide)
      (by norm_num [simEq, show lower "tt" = "tt" from rfl,
        show lower "tx" = "tx" from rfl,
        eq_false (by decide : ¬("tt" : String) = "tx")])).2

/-- Helper: a list holding two distinct elements has length above one. -/
theorem two_mem_one_lt_length {α : Type} {l : List α} {a b : α}
    (ha : a ∈ l) (hb : b ∈ l) (hne : a ≠ b) : 1 < l.length := by
  cases l with
  | nil => simp at ha
  | cons x t =>
    cases t with
    | nil =>
      simp at ha hb
      exact absurd (ha.trans hb.symm) hne
    | cons y u => simp [List.length]

/-- Helper: a live record is duplicate-marked iff its own folder group has
more than one member and the record sits in the tail of the
sorted-by-mtime-descending group. -/
theorem mem_duplicateMarked_iff {live : List MetaRecord} {r : MetaRecord}
    (hr : r ∈ live) :
    r ∈ duplicateMarked live ↔
      1 < (live.filter (fun s => primaryFolder s = primaryFolder r)).length ∧
        r ∈ (List.insertionSort mtimeGe
          (live.filter (fun s => primaryFolder s = primaryFolder r))).tail := by
  unfold duplicateMarked folderGroups
  rw [List.mem_flatMap]
  constructor
  · rintro ⟨fg, hfg, hrin⟩
    obtain ⟨f, hf, rfl⟩ := List.mem_map.mp hfg
    by_cases hlen : 1 < (live.filter (fun s => primaryFolder s = f)).length
    · rw [if_pos hlen] at hrin
      have hrsort : r ∈ List.insertionSort mtimeGe
          (live.filter (fun s => primaryFolder s = f)) := List.mem_of_mem_tail hrin
      have hrg : r ∈ live.filter (fun s => primaryFolder s = f) :=
        (List.perm_insertionSort mtimeGe _).mem_iff.mp hrsort
      have hpf : primaryFolder r = f := by
        have := List.mem_filter.mp hrg
        simpa using this.2
      subst hpf
      exact ⟨hlen, hrin⟩
    · rw [if_neg hlen] at hrin
      simp at hrin
  · rintro ⟨hlen, hrt⟩
    refine ⟨(primaryFolder r, live.filter (fun s => primaryFolder s = primaryFolder r)),
      List.mem_map.mpr ⟨primaryFolder r, ?_, rfl⟩, ?_⟩
    · exact List.mem_dedup.mpr (List.mem_map.mpr ⟨r, hr, rfl⟩)
    · rw [if_pos hlen]
      exact hrt

/-- C5: among live (stage-one surviving) records with pairwise distinct
record-file modification times per folder, `find_orphaned_metadata` marks a
record as a "duplicate" orphan exactly when some other live record claims
the same primary folder with a strictly newer modification time — so every
group member except the newest is marked, and afterwards at most one
non-orphaned record claims any folder. -/
theorem c5_duplicate_resolution (records : List MetaRecord) (cf tf : List FPath)
    (hnd : (liveRecords records cf tf).Nodup)
    (hdist : ∀ r s, r ∈ liveRecords records cf tf → s ∈ liveRecords records cf tf →
      primaryFolder r = primaryFolder s → r.mtime = s.mtime → r = s) :
    (∀ r, r ∈ liveRecords records cf tf →
      (r ∈ orphanedDuplicates records cf tf ↔
        ∃ s, s ∈ liveRecords records cf tf ∧ primaryFolder s = primaryFolder r ∧
          r.mtime < s.mtime)) ∧
    (∀ r s, r ∈ keptRecords records cf tf → s ∈ keptRecords records cf tf →
      primaryFolder r = primaryFolder s → r = s) := by
  set live := liveRecords records cf tf with hlive
  have key : ∀ r, r ∈ live →
      (r ∈ duplicateMarked live ↔
        ∃ s, s ∈ live ∧ primaryFolder s = primaryFolder r ∧ r.mtime < s.mtime) := by
    intro r hr
    set g := live.filter (fun s => primaryFolder s = primaryFolder r) with hg
    have hrg : r ∈ g := List.mem_filter.mpr ⟨hr, by simp⟩
    have hgsub : ∀ x, x ∈ g → x ∈ live := fun x hx => (List.mem_filter.mp hx).1
    have hgfold : ∀ x, x ∈ g → primaryFolder x = primaryFolder r := fun x hx => by
      have := (List.mem_filter.mp hx).2
      simpa using this
    have hgnd : g.Nodup := hnd.filter _
    have hperm : List.Perm (List.insertionSort mtimeGe g) g := List.perm_insertionSort mtimeGe g
    have hsnd : (List.insertionSort mtimeGe g).Nodup := hperm.nodup_iff.mpr hgnd
    have hsorted := List.sorted_insertionSort mtimeGe g
    rw [mem_duplicateMarked_iff hr]
    rcases hs : List.insertionSort mtimeGe g with _ | ⟨hd, t⟩
    · exfalso
      have : r ∈ List.insertionSort mtimeGe g := hperm.mem_iff.mpr hrg
      rw [hs] at this
      simp at this
    · rw [hs] at hsorted hsnd hperm
      have hhd_g : hd ∈ g := hperm.mem_iff.mp (List.mem_cons_self hd t)
      have hmax : ∀ x, x ∈ t → x.mtime ≤ hd.mtime := fun x hx =>
        List.rel_of_sorted_cons hsorted x hx
      have hhd_nt : hd ∉ t := (List.nodup_cons.mp hsnd).1
      constructor
      · rintro ⟨hlen, hrt⟩
        simp only [List.tail_cons] at hrt
        have hrne : r ≠ hd := by
          intro h
          rw [h] at hrt
          exact hhd_nt hrt
        have hle : r.mtime ≤ hd.mtime := hmax r hrt
        have hlt : r.mtime < hd.mtime := by
          rcases lt_or_eq_of_le hle with h | h
          · exact h
          · exact absurd (hdist r hd hr (hgsub hd hhd_g)
              ((hgfold hd hhd_g).symm ▸ rfl) h) hrne
        exact ⟨hd, hgsub hd hhd_g, hgfold hd hhd_g, hlt⟩
      · rintro ⟨s, hsl, hsf, hslt⟩
        have hsg : s ∈ g := List.mem_filter.mpr ⟨hsl, by simpa using hsf⟩
        have hsne : s ≠ r := by
          intro h
          rw [h] at hslt
          exact lt_irrefl _ hslt
        have hlen : 1 < g.length := two_mem_one_lt_length hsg hrg hsne
        refine ⟨hlen, ?_⟩
        simp only [List.tail_cons]
        have hrsort : r ∈ hd :: t := hperm.mem_iff.mpr hrg
        rcases List.mem_cons.mp hrsort with h | h
        · exfalso
          have hssort : s ∈ hd :: t := hperm.mem_iff.mpr hsg
          rcases List.mem_cons.mp hssort with h2 | h2
          · rw [h, h2] at hslt
            exact lt_irrefl _ hslt
          · have := hmax s h2
            rw [← h] at this
            exact absurd hslt (not_lt.mpr this)
        · exact h
  constructor
  · intro r hr
    exact key r hr
  · intro r s hrk hsk hpf
    obtain ⟨hr, hrm⟩ := List.mem_filter.mp hrk
    obtain ⟨hs, hsm⟩ := List.mem_filter.mp hsk
    simp only [decide_not, Bool.not_eq_true', decide_eq_false_iff_not] at hrm hsm
    by_contra hne
    have hor : r.mtime < s.mtime ∨ s.mtime < r.mtime := by
      rcases lt_trichotomy r.mtime s.mtime with h | h | h
      · exact Or.inl h
      · exact absurd (hdist r s hr hs hpf h) hne
      · exact Or.inr h
    rcases hor with h | h
    · exact hrm ((key r hr).mpr ⟨s, hs, hpf.symm, h⟩)
    · exact hsm ((key s hs).mpr ⟨r, hr, hpf, h⟩)

/-- Witness for C5: of two records claiming folder `f`, the older (mtime 5
versus 9) is duplicate-marked. -/
theorem c5_witness :
    ((⟨"a.json", "ua", "t", [["f", "1.mp3"]], "", 5⟩ : MetaRecord) ∈
        orphanedDuplicates
          [⟨"a.json", "ua", "t", [["f", "1.mp3"]], "", 5⟩,
           ⟨"b.json", "ub", "t", [["f", "2.mp3"]], "", 9⟩]
          [["f", "1.mp3"], ["f", "2.mp3"]] [["f"]] ↔
      ∃ s, s ∈ liveRecords
          [⟨"a.json", "ua", "t", [["f", "1.mp3"]], "", 5⟩,
           ⟨"b.json", "ub", "t", [["f", "2.mp3"]], "", 9⟩]
          [["f", "1.mp3"], ["f", "2.mp3"]] [["f"]] ∧
        primaryFolder s =
          primaryFolder (⟨"a.json", "ua", "t", [["f", "1.mp3"]], "", 5⟩ : MetaRecord) ∧
        (⟨"a.json", "ua", "t", [["f", "1.mp3"]], "", 5⟩ : MetaRecord).mtime < s.mtime) :=
  (c5_duplicate_resolution
    [⟨"a.json", "ua", "t", [["f", "1.mp3"]], "", 5⟩,
     ⟨"b.json", "ub", "t", [["f", "2.mp3"]], "", 9⟩]
    [["f", "1.mp3"], ["f", "2.mp3"]] [["f"]]
    (by decide)
    (by
      intro r s hr hs hpf hmt
      have hl : liveRecords
          [⟨"a.json", "ua", "t", [["f", "1.mp3"]], "", 5⟩,
           ⟨"b.json", "ub", "t", [["f", "2.mp3"]], "", 9⟩]
          [["f", "1.mp3"], ["f", "2.mp3"]] [["f"]] =
          [⟨"a.json", "ua", "t", [["f", "1.mp3"]], "", 5⟩,
           ⟨"b.json", "ub", "t", [["f", "2.mp3"]], "", 9⟩] := by decide
      rw [hl] at hr hs
      simp only [List.mem_cons, List.not_mem_nil, or_false] at hr hs
      rcases hr with rfl | rfl <;> rcases hs with rfl | rfl <;>
        first
          | rfl
          | exact absurd hmt (by decide))).1
    ⟨"a.json", "ua", "t", [["f", "1.mp3"]], "", 5⟩
    (by decide)

/-- Helper: string append acts as list append on characters. -/
theorem string_toList_append (s t : String) : (s ++ t).toList = s.toList ++ t.toList := rfl

/-- Helper: splitting a character list at its unique dot is unambiguous. -/
theorem append_dot_inj {a1 a2 t1 t2 : List Char}
    (h1 : '.' ∉ a1) (h2 : '.' ∉ a2)
    (h : a1 ++ '.' :: t1 = a2 ++ '.' :: t2) : a1 = a2 ∧ t1 = t2 := by
  induction a1 generalizing a2 with
  | nil =>
    cases a2 with
    | nil =>
      simp at h
      exact ⟨rfl, h⟩
    | cons d a2' =>
      simp at h
      exact absurd (h.1 ▸ List.mem_cons_self d a2') (h.1 ▸ h2)
  | cons c a1' ih =>
    cases a2 with
    | nil =>
      simp at h
      exact absurd (h.1 ▸ List.mem_cons_self c a1') (h.1 ▸ h1)
    | cons d a2' =>
      simp only [List.cons_append, List.cons.injEq] at h
      obtain ⟨rfl, h'⟩ := h
      have := ih (fun hc => h1 (List.mem_cons_of_mem _ hc))
        (fun hc => h2 (List.mem_cons_of_mem _ hc)) h'
      exact ⟨by rw [this.1], this.2⟩

/-- Helper: `uuid ++ ext` determines uuid and extension when the uuid is
dot-free and the extension comes from the probe list. -/
theorem uuid_ext_append_inj {u1 u2 e1 e2 : String}
    (h1 : '.' ∉ u1.toList) (h2 : '.' ∉ u2.toList)
    (he1 : e1 ∈ cover_extensions) (he2 : e2 ∈ cover_extensions)
    (heq : u1 ++ e1 = u2 ++ e2) : u1 = u2 ∧ e1 = e2 := by
  have hd : ∀ e, e ∈ cover_extensions → ∃ t, e.toList = '.' :: t ∧ '.' ∉ t := by
    intro e he
    fin_cases he <;> exact ⟨_, rfl, by decide⟩
  obtain ⟨t1, ht1, ht1n⟩ := hd e1 he1
  obtain ⟨t2, ht2, ht2n⟩ := hd e2 he2
  have hlist : u1.toList ++ '.' :: t1 = u2.toList ++ '.' :: t2 := by
    rw [← ht1, ← ht2, ← string_toList_append, ← string_toList_append, heq]
  obtain ⟨ha, ht⟩ := append_dot_inj h1 h2 hlist
  constructor
  · cases u1; cases u2
    simpa [String.ext_iff] using ha
  · cases e1; cases e2
    have : t1 = t2 := ht
    simp only [String.ext_iff]
    have := ht1 ▸ ht2 ▸ congrArg (fun l => ('.' :: l : List Char)) this
    simpa [← ht1, ← ht2] using this

/-- Helper: a work in `successfully_organized` was selected, move mode was
on, path generation succeeded, and every zipped file was moved. -/
theorem mem_phase1_eligible {copy : Bool} {ws : List OrgWork} {w : OrgWork} :
    ∀ {fs : List FPath}, w ∈ (organizePhase1 copy fs ws).2 →
      w ∈ ws ∧ copy = false ∧ ∃ org, w.organizedPaths = some org ∧
        ∃ fsw, (moveFiles copy fsw (w.origPaths.zip org)).2 = w.origPaths.length := by
  induction ws with
  | nil =>
    intro fs h
    simp [organizePhase1] at h
  | cons w' rest ih =>
    intro fs h
    unfold organizePhase1 at h
    rcases List.mem_append.mp h with h1 | h1
    · by_cases hp : (processWork copy fs w').2 = true
      · rw [if_pos hp] at h1
        obtain rfl : w = w' := by simpa using h1
        unfold processWork at hp
        cases horg : w.organizedPaths with
        | none =>
          rw [horg] at hp
          simp at hp
        | some org =>
          rw [horg] at hp
          simp only [Bool.and_eq_true, Bool.not_eq_true', decide_eq_true_eq] at hp
          exact ⟨List.mem_cons_self _ _, hp.1, org, rfl, fs, hp.2⟩
      · rw [if_neg hp] at h1
        simp at h1
    · obtain ⟨hm, hrest⟩ := ih h1
      exact ⟨List.mem_cons_of_mem _ hm, hrest⟩

/-- Helper: explicit form of one cleanup step. -/
theorem cleanupWork_eq (fs : List FPath) (meta covers : List String) (w : OrgWork) :
    cleanupWork fs (meta, covers) w =
      if w.uuid = "" then (meta, covers)
      else if recheckClear fs w = true then (meta.erase w.uuid, deleteCover covers w.uuid)
      else (meta, covers) := rfl

/-- Helper: unfolding one step of the cleanup fold. -/
theorem organizePhase3_cons (fs : List FPath) (w : OrgWork) (rest : List OrgWork)
    (meta covers : List String) :
    organizePhase3 fs (w :: rest) meta covers =
      organizePhase3 fs rest (cleanupWork fs (meta, covers) w).1
        (cleanupWork fs (meta, covers) w).2 := by
  unfold organizePhase3
  rw [List.foldl_cons]

/-- Helper: a record uuid deleted by the cleanup loop belongs to an
eligible work that passed the on-disk re-check. -/
theorem phase3_meta_deleted {fs : List FPath} {elig : List OrgWork} {u : String} :
    ∀ {meta covers : List String}, u ∈ meta →
      u ∉ (organizePhase3 fs elig meta covers).1 →
      ∃ w, w ∈ elig ∧ w.uuid = u ∧ recheckClear fs w = true := by
  induction elig with
  | nil =>
    intro meta covers hu hnu
    exact absurd hu hnu
  | cons w rest ih =>
    intro meta covers hu hnu
    rw [organizePhase3_cons, cleanupWork_eq] at hnu
    split_ifs at hnu with h0 hrc
    · obtain ⟨w', hw', hrest⟩ := ih hu hnu
      exact ⟨w', List.mem_cons_of_mem _ hw', hrest⟩
    · by_cases heq : u = w.uuid
      · exact ⟨w, List.mem_cons_self _ _, heq.symm, hrc⟩
      · have hu' : u ∈ List.erase meta w.uuid := (List.mem_erase_of_ne heq).mpr hu
        obtain ⟨w', hw', hrest⟩ := ih hu' hnu
        exact ⟨w', List.mem_cons_of_mem _ hw', hrest⟩
    · obtain ⟨w', hw', hrest⟩ := ih hu hnu
      exact ⟨w', List.mem_cons_of_mem _ hw', hrest⟩

/-- Helper: a cover deleted for a uuid is that uuid plus a probed
extension. -/
theorem deleteCover_cases {covers : List String} {uuid c : String}
    (hc : c ∈ covers) (hnc : c ∉ deleteCover covers uuid) :
    ∃ e, e ∈ cover_extensions ∧ c = uuid ++ e := by
  unfold deleteCover at hnc
  cases hf : cover_extensions.find? (fun e => covers.contains (uuid ++ e)) with
  | none =>
    rw [hf] at hnc
    exact absurd hc hnc
  | some e =>
    rw [hf] at hnc
    by_cases heq : c = uuid ++ e
    · exact ⟨e, List.mem_of_find?_eq_some hf, heq⟩
    · exact absurd ((List.mem_erase_of_ne heq).mpr hc) hnc

/-- Helper: a cover deleted by the cleanup loop names an eligible,
re-checked work. -/
theorem phase3_cover_deleted {fs : List FPath} {elig : List OrgWork} {c : String} :
    ∀ {meta covers : List String}, c ∈ covers →
      c ∉ (organizePhase3 fs elig meta covers).2 →
      ∃ w, w ∈ elig ∧ recheckClear fs w = true ∧
        ∃ e, e ∈ cover_extensions ∧ c = w.uuid ++ e := by
  induction elig with
  | nil =>
    intro meta covers hc hnc
    exact absurd hc hnc
  | cons w rest ih =>
    intro meta covers hc hnc
    rw [organizePhase3_cons, cleanupWork_eq] at hnc
    split_ifs at hnc with h0 hrc
    · obtain ⟨w', hw', hrest⟩ := ih hc hnc
      exact ⟨w', List.mem_cons_of_mem _ hw', hrest⟩
    · by_cases hcd : c ∈ deleteCover covers w.uuid
      · obtain ⟨w', hw', hrest⟩ := ih hcd hnc
        exact ⟨w', List.mem_cons_of_mem _ hw', hrest⟩
      · obtain ⟨e, he, hce⟩ := deleteCover_cases hc hcd
        exact ⟨w, List.mem_cons_self _ _, hrc, e, he, hce⟩
    · obtain ⟨w', hw', hrest⟩ := ih hc hnc
      exact ⟨w', List.mem_cons_of_mem _ hw', hrest⟩

/-- Helper: uuids of no eligible work survive cleanup untouched. -/
theorem phase3_meta_preserved {fs : List FPath} {elig : List OrgWork} {u : String}
    (hne : ∀ w, w ∈ elig → w.uuid ≠ u) :
    ∀ {meta covers : List String},
      (u ∈ (organizePhase3 fs elig meta covers).1 ↔ u ∈ meta) := by
  induction elig with
  | nil =>
    intro meta covers
    exact Iff.rfl
  | cons w rest ih =>
    intro meta covers
    have hw := hne w (List.mem_cons_self _ _)
    have hrest : ∀ w', w' ∈ rest → w'.uuid ≠ u :=
      fun w' hw' => hne w' (List.mem_cons_of_mem _ hw')
    rw [organizePhase3_cons, cleanupWork_eq]
    split_ifs with h0 hrc
    · exact ih hrest
    · rw [ih hrest]
      exact List.mem_erase_of_ne (fun h => hw h.symm)
    · exact ih hrest

/-- Helper: covers named by no eligible work survive cleanup untouched. -/
theorem phase3_cover_preserved {fs : List FPath} {elig : List OrgWork} {c : String}
    (hne : ∀ w, w ∈ elig → ∀ e, e ∈ cover_extensions → w.uuid ++ e ≠ c) :
    ∀ {meta covers : List String},
      (c ∈ (organizePhase3 fs elig meta covers).2 ↔ c ∈ covers) := by
  induction elig with
  | nil =>
    intro meta covers
    exact Iff.rfl
  | cons w rest ih =>
    intro meta covers
    have hw := hne w (List.mem_cons_self _ _)
    have hrest : ∀ w', w' ∈ rest → ∀ e, e ∈ cover_extensions → w'.uuid ++ e ≠ c :=
      fun w' hw' => hne w' (List.mem_cons_of_mem _ hw')
    rw [organizePhase3_cons, cleanupWork_eq]
    split_ifs with h0 hrc
    · exact ih hrest
    · rw [ih hrest]
      unfold deleteCover
      cases hf : List.find? (fun e => List.contains covers (w.uuid ++ e)) cover_extensions with
      | none => exact Iff.rfl
      | some e =>
        exact List.mem_erase_of_ne (fun h => hw e (List.mem_of_find?_eq_some hf) h.symm)
    · exact ih hrest

/-- Helper: organize in copy mode leaves both stores untouched. -/
theorem organize_true_eq (fs : List FPath) (meta covers : List String)
    (works : List OrgWork) :
    organize_audiobooks true fs meta covers works =
      ⟨(organizePhase1 true fs (selectedWorks works)).1, meta, covers,
       (organizePhase1 true fs (selectedWorks works)).2⟩ := rfl

/-- Helper: organize in move mode runs the cleanup fold on the post-move
filesystem. -/
theorem organize_false_eq (fs : List FPath) (meta covers : List String)
    (works : List OrgWork) :
    organize_audiobooks false fs meta covers works =
      ⟨(organizePhase1 false fs (selectedWorks works)).1,
       (organizePhase3 (organizePhase1 false fs (selectedWorks works)).1
          (organizePhase1 false fs (selectedWorks works)).2 meta covers).1,
       (organizePhase3 (organizePhase1 false fs (selectedWorks works)).1
          (organizePhase1 false fs (selectedWorks works)).2 meta covers).2,
       (organizePhase1 false fs (selectedWorks works)).2⟩ := rfl

/-- C1: a work's metadata record or cover is deleted only when move mode is
active, the work was selected and every one of its files was moved
successfully, and the subsequent re-check found none of its original paths
on disk; in copy mode both stores are returned unchanged, and a selected
work with any failed or missing file keeps its record and all its covers
(uuids assumed pairwise distinct and dot-free, as the uuid4 identifiers of
the source are). -/
theorem c1_organize_cleanup_safety (copy_only : Bool) (fs : List FPath)
    (meta covers : List String) (works : List OrgWork)
    (hnd : ((selectedWorks works).map OrgWork.uuid).Nodup)
    (hdot : ∀ w, w ∈ selectedWorks works → '.' ∉ w.uuid.toList) :
    (copy_only = true →
      (organize_audiobooks copy_only fs meta covers works).metaStore = meta ∧
      (organize_audiobooks copy_only fs meta covers works).coverStore = covers) ∧
    (∀ w, w ∈ (organize_audiobooks copy_only fs meta covers works).eligible →
      copy_only = false ∧ w ∈ selectedWorks works ∧
      ∃ org, w.organizedPaths = some org ∧
        ∃ fsw, (moveFiles copy_only fsw (w.origPaths.zip org)).2 = w.origPaths.length) ∧
    (∀ u, u ∈ meta →
      u ∉ (organize_audiobooks copy_only fs meta covers works).metaStore →
      copy_only = false ∧
      ∃ w, w ∈ (organize_audiobooks copy_only fs meta covers works).eligible ∧
        w.uuid = u ∧
        recheckClear (organize_audiobooks copy_only fs meta covers works).fs w = true) ∧
    (∀ c, c ∈ covers →
      c ∉ (organize_audiobooks copy_only fs meta covers works).coverStore →
      copy_only = false ∧
      ∃ w, w ∈ (organize_audiobooks copy_only fs meta covers works).eligible ∧
        recheckClear (organize_audiobooks copy_only fs meta covers works).fs w = true ∧
        ∃ e, e ∈ cover_extensions ∧ c = w.uuid ++ e) ∧
    (∀ w, w ∈ selectedWorks works →
      w ∉ (organize_audiobooks copy_only fs meta covers works).eligible →
      (w.uuid ∈ (organize_audiobooks copy_only fs meta covers works).metaStore ↔
        w.uuid ∈ meta) ∧
      (∀ e, e ∈ cover_extensions →
        (w.uuid ++ e ∈ (organize_audiobooks copy_only fs meta covers works).coverStore ↔
          w.uuid ++ e ∈ covers))) := by
  cases copy_only with
  | true =>
    rw [organize_true_eq]
    refine ⟨fun _ => ⟨rfl, rfl⟩, ?_, ?_, ?_, ?_⟩
    · intro w hw
      exact absurd (mem_phase1_eligible hw).2.1 (by simp)
    · intro u hu hnu
      exact absurd hu hnu
    · intro c hc hnc
      exact absurd hc hnc
    · intro w _ _
      exact ⟨Iff.rfl, fun _ _ => Iff.rfl⟩
  | false =>
    rw [organize_false_eq]
    refine ⟨fun h => absurd h (by simp), ?_, ?_, ?_, ?_⟩
    · intro w hw
      obtain ⟨hsel, _, hrest⟩ := mem_phase1_eligible hw
      exact ⟨rfl, hsel, hrest⟩
    · intro u hu hnu
      obtain ⟨w, hw, huu, hrc⟩ := phase3_meta_deleted hu hnu
      exact ⟨rfl, w, hw, huu, hrc⟩
    · intro c hc hnc
      obtain ⟨w, hw, hrc, he⟩ := phase3_cover_deleted hc hnc
      exact ⟨rfl, w, hw, hrc, he⟩
    · intro w hwsel hwne
      have hne_m : ∀ w', w' ∈ (organizePhase1 false fs (selectedWorks works)).2 →
          w'.uuid ≠ w.uuid := by
        intro w' hw' heq
        have hsel' := (mem_phase1_eligible hw').1
        have : w' = w := List.inj_on_of_nodup_map hnd hsel' hwsel heq
        rw [this] at hw'
        exact hwne hw'
      refine ⟨phase3_meta_preserved hne_m, ?_⟩
      intro e he
      have hne_c : ∀ w', w' ∈ (organizePhase1 false fs (selectedWorks works)).2 →
          ∀ e', e' ∈ cover_extensions → w'.uuid ++ e' ≠ w.uuid ++ e := by
        intro w' hw' e' he' heq
        have hsel' := (mem_phase1_eligible hw').1
        have := uuid_ext_append_inj (hdot w' hsel') (hdot w hwsel) he' he heq
        exact hne_m w' hw' this.1
      exact phase3_cover_preserved hne_c

/-- Witness for C1: in a batch with a half-failed two-file work `u1` and a
fully moved one-file work `u2`, the record deleted is that of an eligible,
re-checked work (`u2`). -/
theorem c1_witness :
    false = false ∧
    ∃ w, w ∈ (organize_audiobooks false [["f", "1.mp3"], ["g", "1.mp3"]]
        ["u1", "u2"] ["u1.jpg", "u2.png"]
        [⟨"u1", "accepted", true, [["f", "1.mp3"], ["f", "2.mp3"]],
          some [["d", "x1"], ["d", "x2"]]⟩,
         ⟨"u2", "accepted", true, [["g", "1.mp3"]], some [["d", "y1"]]⟩]).eligible ∧
      w.uuid = "u2" ∧
      recheckClear (organize_audiobooks false [["f", "1.mp3"], ["g", "1.mp3"]]
        ["u1", "u2"] ["u1.jpg", "u2.png"]
        [⟨"u1", "accepted", true, [["f", "1.mp3"], ["f", "2.mp3"]],
          some [["d", "x1"], ["d", "x2"]]⟩,
         ⟨"u2", "accepted", true, [["g", "1.mp3"]], some [["d", "y1"]]⟩]).fs w = true :=
  (c1_organize_cleanup_safety false [["f", "1.mp3"], ["g", "1.mp3"]]
      ["u1", "u2"] ["u1.jpg", "u2.png"]
      [⟨"u1", "accepted", true, [["f", "1.mp3"], ["f", "2.mp3"]],
        some [["d", "x1"], ["d", "x2"]]⟩,
       ⟨"u2", "accepted", true, [["g", "1.mp3"]], some [["d", "y1"]]⟩]
      (by decide) (by decide)).2.2.1 "u2" (by decide) (by decide)
